import Mathlib

/-!
Shallow embedding of `src/combat_entities.py` (StatSector damage engine).

Numeric convention: the Python module mixes `float`, `int` and `Decimal`
values; the embedding models all of them as exact rationals (`ℚ`), with
Python `int(x)` modelled as truncation toward zero (`pyTrunc`) and Python
integer state (ammo counts) as `ℤ`.  The 2D numpy array `ArmorGrid.cells`
of shape `(5, width+4)` is modelled as a total function `ℕ → ℕ → ℚ`
together with the `width` field; only indices `r < 5`, `c < width + 4`
correspond to array entries.
-/

namespace StatSector

/-- Python `int(q)` on a nonnegative-or-negative rational: truncation toward
zero, which is `Int.div` (T-division) of numerator by denominator. -/
def pyTrunc (q : ℚ) : ℤ := Int.tdiv q.num q.den

/-- On nonnegative rationals, Python truncation agrees with the floor. -/
theorem pyTrunc_eq_floor (q : ℚ) (hq : 0 ≤ q) : pyTrunc q = ⌊q⌋ := by
  have hnum : 0 ≤ q.num := Rat.num_nonneg.mpr hq
  rw [pyTrunc, Rat.floor_def, Int.tdiv_eq_ediv hnum (Int.ofNat_nonneg q.den)]

/-! ### ArmorGrid (`class ArmorGrid`) -/

/-- `ArmorGrid._MINIMUM_ARMOR_FACTOR = 0.05`. -/
def MINIMUM_ARMOR_FACTOR : ℚ := 1/20

/-- `ArmorGrid._MINIMUM_DAMAGE_FACTOR = 0.15`. -/
def MINIMUM_DAMAGE_FACTOR : ℚ := 3/20

/-- `ArmorGrid.ARMOR_RATING_PER_CELL_FACTOR = 1 / 15`. -/
def ARMOR_RATING_PER_CELL_FACTOR : ℚ := 1/15

/-- `ArmorGrid.POOLING_WEIGHTS`: the 5×5 kernel
`[[0, .5, .5, .5, 0], [.5, 1, 1, 1, .5], [.5, 1, 1, 1, .5],
  [.5, 1, 1, 1, .5], [0, .5, .5, .5, 0]]`, as a function of
(row, column); entries outside the 5×5 range are 0. -/
def POOLING_WEIGHTS (r c : ℕ) : ℚ :=
  if r < 5 ∧ c < 5 then
    if (r = 0 ∨ r = 4) ∧ (c = 0 ∨ c = 4) then 0
    else if r = 0 ∨ r = 4 ∨ c = 0 ∨ c = 4 then 1/2
    else 1
  else 0

/-- `ArmorGrid.DAMAGE_DISTRIBUTION = ARMOR_RATING_PER_CELL_FACTOR * POOLING_WEIGHTS`. -/
def DAMAGE_DISTRIBUTION (r c : ℕ) : ℚ :=
  ARMOR_RATING_PER_CELL_FACTOR * POOLING_WEIGHTS r c

/-- State of `ArmorGrid`: `_minimum_armor`, the cell array (5 rows,
`width + 4` columns including 2 columns of padding on each side), and the
`bounds` array of the `width` non-padding middle-row cell positions. -/
structure ArmorGrid where
  minimum_armor : ℚ
  width : ℕ
  cells : ℕ → ℕ → ℚ
  bounds : List ℚ

/-- `ArmorGrid.__init__(armor_rating, cell_size, width)`. -/
def ArmorGrid.create (armor_rating cell_size : ℚ) (width : ℕ) : ArmorGrid :=
  { minimum_armor := MINIMUM_ARMOR_FACTOR * armor_rating
    width := width
    cells := fun _ _ => armor_rating * ARMOR_RATING_PER_CELL_FACTOR
    bounds := (List.range width).map (fun i => (i : ℚ) * cell_size) }

/-- `ArmorGrid._pool(index)`: weighted sum of the kernel over the 5×5 window
of cells at columns `index .. index+4`. -/
def ArmorGrid.pool (g : ArmorGrid) (index : ℕ) : ℚ :=
  ∑ r ∈ Finset.range 5, ∑ c ∈ Finset.range 5,
    POOLING_WEIGHTS r c * g.cells r (index + c)

/-- Entry `i` of `ArmorGrid._pooled_values()`: pooled armor around
non-padding middle-row cell `i`, floored at `_minimum_armor`. -/
def ArmorGrid.pooledValue (g : ArmorGrid) (i : ℕ) : ℚ :=
  max g.minimum_armor (g.pool i)

/-- Entry `i` of `ArmorGrid.damage_factors(hit_strength)`. -/
def ArmorGrid.damageFactor (g : ArmorGrid) (hit_strength : ℚ) (i : ℕ) : ℚ :=
  max MINIMUM_DAMAGE_FACTOR (1 / (1 + g.pooledValue i / hit_strength))

/-! ### Ship (`class Ship`) -/

/-- Mutable state of `Ship` used by the damage path.  The weapon list and
raw data record play no role in the claims and are omitted. -/
structure Ship where
  hull : ℚ
  flux_capacity : ℚ
  flux_dissipation : ℚ
  hard_flux : ℚ
  soft_flux : ℚ
  armor_grid : ArmorGrid

/-! ### Shot (`class Shot`) -/

/-- Keys of `Shot.DAMAGE_TYPE_DAMAGE_FACTORS`; any other string raises
`KeyError` in `Shot.__init__`, so only these four are representable. -/
inductive DamageType where
  | KINETIC
  | HIGH_EXPLOSIVE
  | FRAGMENTATION
  | ENERGY
  deriving DecidableEq

/-- Column `"shield"` of `Shot.DAMAGE_TYPE_DAMAGE_FACTORS`. -/
def DamageType.shieldFactor : DamageType → ℚ
  | .KINETIC => 2
  | .HIGH_EXPLOSIVE => 1/2
  | .FRAGMENTATION => 1/4
  | .ENERGY => 1

/-- Column `"armor"` of `Shot.DAMAGE_TYPE_DAMAGE_FACTORS`. -/
def DamageType.armorFactor : DamageType → ℚ
  | .KINETIC => 1/2
  | .HIGH_EXPLOSIVE => 2
  | .FRAGMENTATION => 1/4
  | .ENERGY => 1

/-- State of `Shot`: the five scalars fixed by `__init__` and the two
per-target caches (`_probabilities`, `_expected_armor_damage`), which are
`None` until `distribute` runs. -/
structure Shot where
  damage : ℚ
  armor_damage_factor : ℚ
  shield_damage : ℚ
  armor_damage : ℚ
  strength : ℚ
  flux_hard : Bool
  probabilities : Option (List ℚ)
  expected_armor_damage : Option (List ℚ)
  deriving DecidableEq

/-- `Shot.__init__(damage, damage_type, beam, flux_hard)`. -/
def Shot.create (damage : ℚ) (damage_type : DamageType) (beam flux_hard : Bool) :
    Shot :=
  { damage := damage
    armor_damage_factor := damage_type.armorFactor
    shield_damage := damage * damage_type.shieldFactor
    armor_damage := damage * damage_type.armorFactor
    strength := damage * damage_type.armorFactor * (if beam then 1/2 else 1)
    flux_hard := flux_hard
    probabilities := none
    expected_armor_damage := none }

/-- `Shot.distribute(ship, distribution)`: evaluate the distribution at every
entry of `ship.armor_grid.bounds` and cache the probabilities and the
expected armor damage `armor_damage * probabilities`.  The ship is only
read, never written. -/
def Shot.distribute (shot : Shot) (ship : Ship) (distribution : ℚ → ℚ) : Shot :=
  let probs := ship.armor_grid.bounds.map distribution
  { shot with
      probabilities := some probs
      expected_armor_damage := some (probs.map (fun p => shot.armor_damage * p)) }

/-- `Shot.damage_armor_grid(armor_grid, damage, i)`: subtract
`damage * DAMAGE_DISTRIBUTION` elementwise from the 5×5 window of cells at
columns `i .. i+4`. -/
def Shot.damage_armor_grid (g : ArmorGrid) (damage : ℚ) (i : ℕ) : ArmorGrid :=
  { g with
      cells := fun r c =>
        if r < 5 ∧ i ≤ c ∧ c < i + 5 then
          g.cells r c - damage * DAMAGE_DISTRIBUTION r (c - i)
        else g.cells r c }

/-- The `for i, damage in enumerate(damage_distribution)` loop of
`Shot.damage_ship`: apply `damage_armor_grid` with the `k`-th damage value
at index `i₀ + k`, sequentially. -/
def applyDamageFrom (g : ArmorGrid) (dd : List ℚ) (i₀ : ℕ) : ArmorGrid :=
  match dd with
  | [] => g
  | d :: rest => applyDamageFrom (Shot.damage_armor_grid g d i₀) rest (i₀ + 1)

/-- `np.sum(cells[cells < 0])`: sum of the negative entries of the 5×(width+4)
cell array. -/
def ArmorGrid.negSum (g : ArmorGrid) : ℚ :=
  ∑ r ∈ Finset.range 5, ∑ c ∈ Finset.range (g.width + 4), min (g.cells r c) 0

/-- Python exceptions that the embedded code can raise. -/
inductive PyExc where
  | typeError
  | keyError
  | unboundLocalError
  | outOfFuel
  deriving DecidableEq

/-- Decidable equality for `Except` results, so that concrete runs of the
embedded fallible code can be checked by `decide`. -/
instance instDecEqExcept {ε α : Type} [DecidableEq ε] [DecidableEq α] :
    DecidableEq (Except ε α) := fun a b =>
  match a, b with
  | .error e, .error f =>
    if h : e = f then .isTrue (by rw [h]) else .isFalse (by simp [h])
  | .ok x, .ok y =>
    if h : x = y then .isTrue (by rw [h]) else .isFalse (by simp [h])
  | .error _, .ok _ => .isFalse (by simp)
  | .ok _, .error _ => .isFalse (by simp)

/-- `Shot.damage_ship(ship)`: multiply the cached expected armor damage by
the current damage factors, apply `damage_armor_grid` once per index, turn
the below-zero overflow into hull damage (hull floored at 0) and clamp the
cells at 0.  With an unpopulated cache (`None`) the Python code raises
`TypeError` on `None * array`. -/
def Shot.damage_ship (shot : Shot) (ship : Ship) : Except PyExc Ship :=
  match shot.expected_armor_damage with
  | none => .error .typeError
  | some e =>
    let dd := e.mapIdx fun i d => d * ship.armor_grid.damageFactor shot.strength i
    let g1 := applyDamageFrom ship.armor_grid dd 0
    let hull_damage := g1.negSum / shot.armor_damage_factor
    .ok { ship with
            hull := max 0 (ship.hull + hull_damage)
            armor_grid := { g1 with cells := fun r c => max 0 (g1.cells r c) } }

/-! ### Weapon parsing (`Weapon.__init__`) and AmmoTracker -/

/-- `Weapon.MINIMUM_REFIRE_DELAY = Decimal(0.05)` (modelled as the exact
rational 1/20). -/
def MINIMUM_REFIRE_DELAY : ℚ := 1/20

/-- The values of `Weapon.mode` assigned by `Weapon.__init__` (string tags
in the source). -/
inductive WeaponMode where
  | GUN
  | MISSILE
  | BURST_BEAM
  | CONTINUOUS_BEAM
  deriving DecidableEq

/-- Python truthiness of a string: the empty string is falsy, every other
string truthy. -/
def pyTruthy (s : String) : Bool := s ≠ ""

/-- The mode-determination block of `Weapon.__init__`, over the raw record
modelled as an association list (`data[k]` = `lookup`, `v in data` = key
membership).  Transcribed faithfully, including the two slips in the
source: `data["type"] == "BALLISTIC" or "ENERGY"` is the Python
disjunction of a comparison with the truthy literal "ENERGY", and the
beam branch tests `data["damage/shot"] in data`, i.e. whether the VALUE
stored under "damage/shot" occurs among the KEYS of the record (raising
`KeyError` when "damage/shot" is absent). -/
def weaponMode (data : List (String × String)) : Except PyExc (Option WeaponMode) :=
  match data.lookup ("specClass") with
  | none => .error .keyError
  | some sc =>
    if sc = "projectile" then
      match data.lookup ("type") with
      | none => .error .keyError
      | some ty =>
        if (ty = "BALLISTIC") ∨ pyTruthy "ENERGY" = true then
          .ok (some .GUN)
        else .ok (some .MISSILE)
    else if sc = "BEAM" then
      match data.lookup ("damage/shot") with
      | none => .error .keyError
      | some v =>
        if (data.map Prod.fst).contains v then .ok (some .BURST_BEAM)
        else .ok (some .CONTINUOUS_BEAM)
    else .ok none

/-- Raw numeric attributes of a weapon record used by the GUN path. -/
structure GunWeaponData where
  chargeup : ℚ
  chargedown : ℚ
  burst_size : ℚ
  burst_delay : ℚ
  ammo : ℤ
  ammo_regen : ℚ
  reload_size : ℚ
  proj_speed : ℚ

/-- GUN-mode weapon parameters after `Weapon.__init__`. -/
structure GunWeapon where
  charge_up : ℚ
  charge_down : ℚ
  burst_size : ℕ
  burst_delay : ℚ
  ammo : ℤ
  ammo_regen : ℚ
  reload_size : ℚ
  proj_speed : ℚ
  deriving DecidableEq

/-- The parameter-parsing part of `Weapon.__init__` for a GUN-mode weapon:
`burst_delay` is clamped to at least `MINIMUM_REFIRE_DELAY` when positive,
`burst_size` is truncated to an integer and `charge_down` is clamped to at
least `MINIMUM_REFIRE_DELAY`. -/
def GunWeapon.create (d : GunWeaponData) : GunWeapon :=
  { charge_up := d.chargeup
    charge_down := max d.chargedown MINIMUM_REFIRE_DELAY
    burst_size := (pyTrunc d.burst_size).toNat
    burst_delay := if 0 < d.burst_delay then max d.burst_delay MINIMUM_REFIRE_DELAY
                   else d.burst_delay
    ammo := d.ammo
    ammo_regen := d.ammo_regen
    reload_size := d.reload_size
    proj_speed := d.proj_speed }

/-- State of `AmmoTracker`.  `ammo` and `ammo_regenerated` are
integer-valued in the source (`int` ammo, `Decimal` accumulator that is
only ever incremented by `int` amounts), modelled as `ℤ`. -/
@[ext]
structure AmmoTracker where
  weapon : GunWeapon
  ammo : ℤ
  ammo_regen_time : ℚ
  ammo_regenerated : ℤ
  ammo_regen_timer : ℚ
  regenerating_ammo : Bool
  deriving DecidableEq

/-- `AmmoTracker.__init__(weapon)`. -/
def AmmoTracker.create (w : GunWeapon) : AmmoTracker :=
  { weapon := w
    ammo := w.ammo
    ammo_regen_time := 1 / w.ammo_regen
    ammo_regenerated := 0
    ammo_regen_timer := 0
    regenerating_ammo := false }

/-- `AmmoTracker.should_regenerate_ammo(time)`. -/
def AmmoTracker.should_regenerate_ammo (tr : AmmoTracker) (time : ℚ) : Bool :=
  tr.ammo_regen_time ≤ time - tr.ammo_regen_timer

/-- `AmmoTracker.regenerate_ammo(time)`: truncate the regenerated amount to
whole units, advance the timer by the whole-unit time, credit the
accumulator into `ammo` once it reaches `reload_size`, and clamp `ammo` at
the weapon's maximum (clearing the regenerating flag there). -/
def AmmoTracker.regenerate_ammo (tr : AmmoTracker) (time : ℚ) : AmmoTracker :=
  let amount : ℤ := pyTrunc (tr.weapon.ammo_regen * (time - tr.ammo_regen_timer))
  let regenerated := tr.ammo_regenerated + amount
  let timer := tr.ammo_regen_timer + (amount : ℚ) / tr.weapon.ammo_regen
  let credit := tr.weapon.reload_size ≤ (regenerated : ℚ)
  let ammo1 : ℤ := if credit then tr.ammo + regenerated else tr.ammo
  let regenerated1 : ℤ := if credit then 0 else regenerated
  if tr.weapon.ammo ≤ ammo1 then
    { tr with ammo := tr.weapon.ammo, ammo_regenerated := regenerated1,
              ammo_regen_timer := timer, regenerating_ammo := false }
  else
    { tr with ammo := ammo1, ammo_regenerated := regenerated1,
              ammo_regen_timer := timer }

/-- The `if should_regenerate_ammo: regenerate_ammo` guard used at every
regeneration check point of `_gun_hit_sequence`. -/
def AmmoTracker.regenCheck (tr : AmmoTracker) (time : ℚ) : AmmoTracker :=
  if tr.should_regenerate_ammo time then tr.regenerate_ammo time else tr

/-! ### `Weapon._gun_hit_sequence` -/

/-- Locals of the `_gun_hit_sequence` loop: the simulated time, the
transient `AmmoTracker` and the list of recorded hit times. -/
@[ext]
structure GunSimState where
  time : ℚ
  tracker : AmmoTracker
  times : List ℚ

/-- `_simultaneous_shots` (taken when `burst_delay == 0`): fire up to
`burst_size` shots at the current time, skipping when out of ammo; each
shot is recorded at `time + travel_time`, consumes one unit of ammo and
starts the regeneration timer when it is not already running.  The loop
variable is unused, so the `range(burst_size)` loop is a countdown. -/
def simultaneousShots (travel : ℚ) : ℕ → GunSimState → GunSimState
  | 0, s => s
  | n + 1, s =>
    if s.tracker.ammo = 0 then simultaneousShots travel n s
    else
      simultaneousShots travel n
        { s with
            times := s.times ++ [s.time + travel],
            tracker :=
              if s.tracker.regenerating_ammo then
                { s.tracker with ammo := s.tracker.ammo - 1 }
              else
                { s.tracker with
                    ammo := s.tracker.ammo - 1
                    ammo_regen_timer := s.time
                    regenerating_ammo := true } }

/-- `_successive_shots` (taken when `burst_delay != 0`): the source assigns
`time += self.burst_delay` inside the nested function without declaring
`time` nonlocal, which makes `time` local to `_successive_shots`; its first
read, `times.append(time + travel_time)`, therefore raises
`UnboundLocalError` whenever a shot is actually fired (ammo nonzero).
Iterations skipped for lack of ammo do not touch `time`. -/
def successiveShots : ℕ → GunSimState → Except PyExc GunSimState
  | 0, s => .ok s
  | n + 1, s =>
    if s.tracker.ammo = 0 then successiveShots n s
    else .error .unboundLocalError

/-- One iteration of the `while time < time_limit` loop of
`_gun_hit_sequence`: advance by `charge_up`, regeneration check, fire the
shot pattern, advance by `charge_down`, regeneration check. -/
def gunCycle (w : GunWeapon) (travel : ℚ) (s : GunSimState) :
    Except PyExc GunSimState :=
  let t1 := s.time + w.charge_up
  let s1 : GunSimState :=
    { time := t1, tracker := s.tracker.regenCheck t1, times := s.times }
  let afterShots : Except PyExc GunSimState :=
    if w.burst_delay = 0 then .ok (simultaneousShots travel w.burst_size s1)
    else successiveShots w.burst_size s1
  afterShots.map fun s2 =>
    { time := s2.time + w.charge_down,
      tracker := s2.tracker.regenCheck (s2.time + w.charge_down),
      times := s2.times }

/-- The `while time < time_limit` loop, with explicit fuel.  The Python loop
has none; `gunLoop_no_fuel_error` below shows that 2000 units of fuel are
never exhausted when `charge_up ≥ 0` and `charge_down ≥ 0.05` (each cycle
advances time by at least the clamped `charge_down`, and the horizon is
100 seconds), so the fuel is an artifact of the embedding only. -/
def gunLoop (w : GunWeapon) (travel : ℚ) : ℕ → GunSimState → Except PyExc GunSimState
  | 0, s => if s.time < 100 then .error .outOfFuel else .ok s
  | n + 1, s =>
    if s.time < 100 then
      match gunCycle w travel s with
      | .error e => .error e
      | .ok s' => gunLoop w travel n s'
    else .ok s

/-- Membership of a recorded hit time in bucket `k` of the returned
sequence, from the list comprehensions of the `return` statement: bucket 0
tests `0 <= int(t) <= 1`; bucket `k ≥ 1` tests `k - 1 < int(t) <= k`. -/
def bucketMem (k : ℕ) (t : ℚ) : Prop :=
  if k = 0 then 0 ≤ pyTrunc t ∧ pyTrunc t ≤ 1
  else (k : ℤ) - 1 < pyTrunc t ∧ pyTrunc t ≤ (k : ℤ)

instance (k : ℕ) (t : ℚ) : Decidable (bucketMem k t) :=
  if hk : k = 0 then
    decidable_of_iff (0 ≤ pyTrunc t ∧ pyTrunc t ≤ 1)
      (by rw [bucketMem, if_pos hk])
  else
    decidable_of_iff ((k : ℤ) - 1 < pyTrunc t ∧ pyTrunc t ≤ (k : ℤ))
      (by rw [bucketMem, if_neg hk])

/-- The bucketed hit sequence built by the `return` statement of
`_gun_hit_sequence` from the recorded times: one bucket for `int(t)` in
`[0, 1]` followed by one bucket per `i in range(1, 100)`. -/
def hitBuckets (times : List ℚ) : List ℕ :=
  times.countP (fun t => decide (bucketMem 0 t)) ::
    (List.range' 1 99).map (fun i => times.countP (fun t => decide (bucketMem i t)))

/-- Initial state of the `_gun_hit_sequence` loop. -/
def gunInit (w : GunWeapon) : GunSimState :=
  { time := 0, tracker := AmmoTracker.create w, times := [] }

/-- The recorded hit times of a `_gun_hit_sequence` run. -/
def gunTimes (w : GunWeapon) (distance : ℚ) : Except PyExc (List ℚ) :=
  (gunLoop w (distance / w.proj_speed) 2000 (gunInit w)).map GunSimState.times

/-- `Weapon._gun_hit_sequence(distance)`. -/
def gunHitSequence (w : GunWeapon) (distance : ℚ) : Except PyExc (List ℕ) :=
  (gunTimes w distance).map hitBuckets

/-! ### Named locals of `regenerate_ammo` and the gun-loop invariant -/

/-- The local `amount` of `regenerate_ammo`:
`int(ammo_regen * (time - ammo_regen_timer))`. -/
def regenAmount (tr : AmmoTracker) (time : ℚ) : ℤ :=
  pyTrunc (tr.weapon.ammo_regen * (time - tr.ammo_regen_timer))

/-- The accumulator value `ammo_regenerated + amount` inside
`regenerate_ammo`, before the reload check. -/
def regenBatch (tr : AmmoTracker) (time : ℚ) : ℤ :=
  tr.ammo_regenerated + regenAmount tr time

/-- The usable-ammo value after the reload-batch credit of
`regenerate_ammo`, before the cap. -/
def regenAmmo1 (tr : AmmoTracker) (time : ℚ) : ℤ :=
  if tr.weapon.reload_size ≤ (regenBatch tr time : ℚ) then
    tr.ammo + regenBatch tr time
  else tr.ammo

/-- Invariant of the `_gun_hit_sequence` loop state: the tracker belongs to
the weapon, its reload interval is the one set by `AmmoTracker.__init__`,
the usable ammo is between 0 and the weapon's maximum, the accumulated
regeneration is nonnegative and the regeneration timer never runs ahead of
simulated time. -/
def GunInv (w : GunWeapon) (s : GunSimState) : Prop :=
  s.tracker.weapon = w ∧
  s.tracker.ammo_regen_time = 1 / w.ammo_regen ∧
  0 ≤ s.tracker.ammo ∧
  s.tracker.ammo ≤ w.ammo ∧
  0 ≤ s.tracker.ammo_regenerated ∧
  s.tracker.ammo_regen_timer ≤ s.time

/-- Concrete GUN weapon used for the C1 counterexample: one shot fired at
time 0 with travel time 1.5, so the single recorded hit time is 1.5. -/
def gunExampleA : GunWeapon := GunWeapon.create
  { chargeup := 0, chargedown := 100, burst_size := 1, burst_delay := 0,
    ammo := 1, ammo_regen := 1, reload_size := 1, proj_speed := 2 }

/-- Concrete GUN weapon with positive `burst_delay` (0.1 s), used to show
the `_successive_shots` crash. -/
def gunExampleB : GunWeapon := GunWeapon.create
  { chargeup := 0, chargedown := 1, burst_size := 1, burst_delay := 1/10,
    ammo := 1, ammo_regen := 1, reload_size := 1, proj_speed := 1 }

/-- Concrete weapon record: a projectile weapon whose `type` is neither
BALLISTIC nor ENERGY. -/
def missileRecord : List (String × String) :=
  [("specClass", "projectile"), ("type", "MISSILE")]

/-- Concrete mid-run tracker state (5 of 10 ammo, regenerating, timer at 2)
for an `ammo_regen = 1`, `reload_size = 1` weapon. -/
def trackerExample : AmmoTracker :=
  { weapon := { charge_up := 0, charge_down := 1, burst_size := 1,
                burst_delay := 0, ammo := 10, ammo_regen := 1,
                reload_size := 1, proj_speed := 500 },
    ammo := 5, ammo_regen_time := 1, ammo_regenerated := 0,
    ammo_regen_timer := 2, regenerating_ammo := true }

/-! ### Helper lemmas -/

theorem POOLING_WEIGHTS_nonneg (r c : ℕ) : 0 ≤ POOLING_WEIGHTS r c := by
  unfold POOLING_WEIGHTS; split_ifs <;> norm_num

theorem pool_nonneg (g : ArmorGrid) (i : ℕ)
    (hcells : ∀ r < 5, ∀ c < g.width + 4, 0 ≤ g.cells r c) (hi : i < g.width) :
    0 ≤ g.pool i := by
  unfold ArmorGrid.pool
  refine Finset.sum_nonneg fun r hr => Finset.sum_nonneg fun c hc => ?_
  have hr5 := Finset.mem_range.mp hr
  have hc5 := Finset.mem_range.mp hc
  exact mul_nonneg (POOLING_WEIGHTS_nonneg r c)
    (hcells r hr5 (i + c) (by omega))

/-! ### Claim theorems -/

/-- C3: for every `ArmorGrid` state with nonnegative cells and every
`hit_strength > 0`, each non-padding entry of `damage_factors(hit_strength)`
equals `max(0.15, 1 / (1 + pooled_value / hit_strength))` where
`pooled_value` is the pooled armor floored at `_minimum_armor`, and every
entry lies in `[0.15, 1]`. -/
theorem damage_factors_spec (g : ArmorGrid) (s : ℚ) (hs : 0 < s)
    (hcells : ∀ r < 5, ∀ c < g.width + 4, 0 ≤ g.cells r c) :
    ∀ i < g.width,
      g.damageFactor s i
          = max MINIMUM_DAMAGE_FACTOR (1 / (1 + g.pooledValue i / s)) ∧
      MINIMUM_DAMAGE_FACTOR ≤ g.damageFactor s i ∧
      g.damageFactor s i ≤ 1 := by
  intro i hi
  refine ⟨rfl, le_max_left _ _, ?_⟩
  have hp : 0 ≤ g.pool i := pool_nonneg g i hcells hi
  have hpv : 0 ≤ g.pooledValue i := le_trans hp (le_max_right _ _)
  have hds : 0 ≤ g.pooledValue i / s := div_nonneg hpv hs.le
  have hpos : (0 : ℚ) < 1 + g.pooledValue i / s := by linarith
  unfold ArmorGrid.damageFactor
  apply max_le
  · norm_num [MINIMUM_DAMAGE_FACTOR]
  · rw [div_le_one hpos]; linarith

/-- Witness for C3 at a concrete grid (`ArmorGrid(1000, 15, 10)`) and
hit strength 100. -/
theorem damage_factors_spec_witness :
    (0 : ℚ) < 100 ∧
    (∀ r < 5, ∀ c < (ArmorGrid.create 1000 15 10).width + 4,
        0 ≤ (ArmorGrid.create 1000 15 10).cells r c) ∧
    (∀ i < (ArmorGrid.create 1000 15 10).width,
      (ArmorGrid.create 1000 15 10).damageFactor 100 i
          = max MINIMUM_DAMAGE_FACTOR
              (1 / (1 + (ArmorGrid.create 1000 15 10).pooledValue i / 100)) ∧
      MINIMUM_DAMAGE_FACTOR ≤ (ArmorGrid.create 1000 15 10).damageFactor 100 i ∧
      (ArmorGrid.create 1000 15 10).damageFactor 100 i ≤ 1) :=
  ⟨by norm_num,
   fun r _ c _ => by norm_num [ArmorGrid.create, ARMOR_RATING_PER_CELL_FACTOR],
   damage_factors_spec _ 100 (by norm_num)
     (fun r _ c _ => by norm_num [ArmorGrid.create, ARMOR_RATING_PER_CELL_FACTOR])⟩

/-- C4: `damage_armor_grid(g, damage, i)` subtracts
`damage * DAMAGE_DISTRIBUTION` elementwise from the 5×5 window at columns
`i .. i+4`, the total decrease over the window equals
`damage * ARMOR_RATING_PER_CELL_FACTOR * (sum of the pooling weights)`, and
every cell outside the window is unchanged. -/
theorem damage_armor_grid_spec (g : ArmorGrid) (damage : ℚ) (i : ℕ)
    (hd : 0 ≤ damage) (hi : i < g.width) :
    (∀ r < 5, ∀ c, i ≤ c → c < i + 5 →
        (Shot.damage_armor_grid g damage i).cells r c
          = g.cells r c - damage * DAMAGE_DISTRIBUTION r (c - i)) ∧
    (∑ r ∈ Finset.range 5, ∑ c ∈ Finset.range 5,
        (g.cells r (i + c) - (Shot.damage_armor_grid g damage i).cells r (i + c)))
      = damage * ARMOR_RATING_PER_CELL_FACTOR
          * ∑ r ∈ Finset.range 5, ∑ c ∈ Finset.range 5, POOLING_WEIGHTS r c ∧
    (∀ r c, 5 ≤ r ∨ c < i ∨ i + 5 ≤ c →
        (Shot.damage_armor_grid g damage i).cells r c = g.cells r c) := by
  refine ⟨?_, ?_, ?_⟩
  · intro r hr c h1 h2
    have hcond : r < 5 ∧ i ≤ c ∧ c < i + 5 := ⟨hr, h1, h2⟩
    simp only [Shot.damage_armor_grid, if_pos hcond]
  · have step : ∀ r ∈ Finset.range 5, ∀ c ∈ Finset.range 5,
        g.cells r (i + c) - (Shot.damage_armor_grid g damage i).cells r (i + c)
          = damage * (ARMOR_RATING_PER_CELL_FACTOR * POOLING_WEIGHTS r c) := by
      intro r hr c hc
      have hr5 := Finset.mem_range.mp hr
      have hc5 := Finset.mem_range.mp hc
      have hcond : r < 5 ∧ i ≤ i + c ∧ i + c < i + 5 := ⟨hr5, by omega, by omega⟩
      simp only [Shot.damage_armor_grid, if_pos hcond]
      have : i + c - i = c := by omega
      rw [this, DAMAGE_DISTRIBUTION]; ring
    calc (∑ r ∈ Finset.range 5, ∑ c ∈ Finset.range 5,
            (g.cells r (i + c) - (Shot.damage_armor_grid g damage i).cells r (i + c)))
        = ∑ r ∈ Finset.range 5, ∑ c ∈ Finset.range 5,
            damage * (ARMOR_RATING_PER_CELL_FACTOR * POOLING_WEIGHTS r c) :=
          Finset.sum_congr rfl fun r hr =>
            Finset.sum_congr rfl fun c hc => step r hr c hc
      _ = damage * ARMOR_RATING_PER_CELL_FACTOR
            * ∑ r ∈ Finset.range 5, ∑ c ∈ Finset.range 5, POOLING_WEIGHTS r c := by
          rw [Finset.mul_sum]
          refine Finset.sum_congr rfl fun r _ => ?_
          rw [Finset.mul_sum]
          exact Finset.sum_congr rfl fun c _ => by ring
  · intro r c h
    have hcond : ¬(r < 5 ∧ i ≤ c ∧ c < i + 5) := by omega
    simp only [Shot.damage_armor_grid, if_neg hcond]

/-- Witness for C4 at a concrete grid of width 1 and damage 1 at index 0. -/
theorem damage_armor_grid_spec_witness :
    (0 : ℚ) ≤ 1 ∧ 0 < (ArmorGrid.create 15 1 1).width ∧
    (∀ r < 5, ∀ c, 0 ≤ c → c < 0 + 5 →
        (Shot.damage_armor_grid (ArmorGrid.create 15 1 1) 1 0).cells r c
          = (ArmorGrid.create 15 1 1).cells r c - 1 * DAMAGE_DISTRIBUTION r (c - 0)) ∧
    (∑ r ∈ Finset.range 5, ∑ c ∈ Finset.range 5,
        ((ArmorGrid.create 15 1 1).cells r (0 + c)
          - (Shot.damage_armor_grid (ArmorGrid.create 15 1 1) 1 0).cells r (0 + c)))
      = 1 * ARMOR_RATING_PER_CELL_FACTOR
          * ∑ r ∈ Finset.range 5, ∑ c ∈ Finset.range 5, POOLING_WEIGHTS r c ∧
    (∀ r c, 5 ≤ r ∨ c < 0 ∨ 0 + 5 ≤ c →
        (Shot.damage_armor_grid (ArmorGrid.create 15 1 1) 1 0).cells r c
          = (ArmorGrid.create 15 1 1).cells r c) := by
  have h := damage_armor_grid_spec (ArmorGrid.create 15 1 1) 1 0
    (by norm_num) (by norm_num [ArmorGrid.create])
  exact ⟨by norm_num, by norm_num [ArmorGrid.create], h.1, h.2.1, h.2.2⟩

/-- C9: `Shot.distribute(ship, distribution)` writes only the two per-target
caches — `probabilities` becomes the distribution evaluated at the target's
cell bounds and `expected_armor_damage` becomes `armor_damage` times those
probabilities — while `damage`, `shield_damage`, `armor_damage`,
`strength`, `flux_hard` and `armor_damage_factor` are unchanged, and a
second `distribute` against another target completely overwrites both
caches.  The ship is passed read-only (the embedding returns only the new
`Shot`), so the target's state is untouched. -/
theorem distribute_spec (s : Shot) (ship₁ ship₂ : Ship) (d₁ d₂ : ℚ → ℚ) :
    (s.distribute ship₁ d₁).damage = s.damage ∧
    (s.distribute ship₁ d₁).shield_damage = s.shield_damage ∧
    (s.distribute ship₁ d₁).armor_damage = s.armor_damage ∧
    (s.distribute ship₁ d₁).strength = s.strength ∧
    (s.distribute ship₁ d₁).flux_hard = s.flux_hard ∧
    (s.distribute ship₁ d₁).armor_damage_factor = s.armor_damage_factor ∧
    (s.distribute ship₁ d₁).probabilities
        = some (ship₁.armor_grid.bounds.map d₁) ∧
    (s.distribute ship₁ d₁).expected_armor_damage
        = some ((ship₁.armor_grid.bounds.map d₁).map
            (fun p => s.armor_damage * p)) ∧
    (s.distribute ship₁ d₁).distribute ship₂ d₂ = s.distribute ship₂ d₂ :=
  ⟨rfl, rfl, rfl, rfl, rfl, rfl, rfl, rfl, rfl⟩

/-- C2: on a ship with nonnegative hull and a shot whose caches were
populated by `distribute` from a nonnegative distribution,
`Shot.damage_ship` applies `damage_armor_grid` once per non-padding cell
index with the entries of `expected_armor_damage * damage_factors(strength)`,
adds the below-zero overflow divided by `armor_damage_factor` to the hull
(floored at 0), clamps the cells at 0, and returns a ship with
nonnegative hull and nonnegative armor cells. -/
theorem damage_ship_spec (ship : Ship) (shot₀ : Shot) (dist : ℚ → ℚ)
    (hhull : 0 ≤ ship.hull) (hdist : ∀ q, 0 ≤ dist q)
    (hbounds : ship.armor_grid.bounds.length = ship.armor_grid.width) :
    ∃ ship',
      (shot₀.distribute ship dist).damage_ship ship = .ok ship' ∧
      ((ship.armor_grid.bounds.map dist).map
            (fun p => shot₀.armor_damage * p)).length = ship.armor_grid.width ∧
      (let e := (ship.armor_grid.bounds.map dist).map
          (fun p => shot₀.armor_damage * p)
       let dd := e.mapIdx fun i d =>
          d * ship.armor_grid.damageFactor shot₀.strength i
       let g1 := applyDamageFrom ship.armor_grid dd 0
       ship'.hull = max 0 (ship.hull + g1.negSum / shot₀.armor_damage_factor) ∧
       ship'.armor_grid.cells = fun r c => max 0 (g1.cells r c)) ∧
      0 ≤ ship'.hull ∧
      (∀ r c, 0 ≤ ship'.armor_grid.cells r c) := by
  refine ⟨_, rfl, by simp [hbounds], ⟨rfl, rfl⟩, le_max_left _ _,
    fun r c => le_max_left _ _⟩

/-- Witness for C2 on a concrete 1-cell grid, an ENERGY shot of damage 10
and the constant distribution 1/2. -/
theorem damage_ship_spec_witness :
    (0 : ℚ) ≤ 100 ∧
    (∀ q : ℚ, (0 : ℚ) ≤ (fun _ : ℚ => (1 : ℚ)/2) q) ∧
    (ArmorGrid.create 15 1 1).bounds.length = (ArmorGrid.create 15 1 1).width ∧
    (∃ ship',
      ((Shot.create 10 .ENERGY false false).distribute
          { hull := 100, flux_capacity := 1000, flux_dissipation := 10,
            hard_flux := 0, soft_flux := 0,
            armor_grid := ArmorGrid.create 15 1 1 }
          (fun _ : ℚ => (1 : ℚ)/2)).damage_ship
          { hull := 100, flux_capacity := 1000, flux_dissipation := 10,
            hard_flux := 0, soft_flux := 0,
            armor_grid := ArmorGrid.create 15 1 1 } = .ok ship' ∧
      True ∧
      0 ≤ ship'.hull ∧
      (∀ r c, 0 ≤ ship'.armor_grid.cells r c)) := by
  have h := damage_ship_spec
    { hull := 100, flux_capacity := 1000, flux_dissipation := 10,
      hard_flux := 0, soft_flux := 0, armor_grid := ArmorGrid.create 15 1 1 }
    (Shot.create 10 .ENERGY false false) (fun _ : ℚ => (1 : ℚ)/2)
    (by norm_num) (fun q => by norm_num) (by decide)
  obtain ⟨ship', h1, _, _, h4, h5⟩ := h
  exact ⟨by norm_num, fun q => by norm_num, by decide,
    ⟨ship', h1, trivial, h4, h5⟩⟩

/-- Characterization of `regenerate_ammo` in terms of the named locals
`regenAmount`, `regenBatch`, `regenAmmo1`. -/
theorem regenerate_ammo_eq (tr : AmmoTracker) (t : ℚ) :
    tr.regenerate_ammo t =
      if tr.weapon.ammo ≤ regenAmmo1 tr t then
        { tr with ammo := tr.weapon.ammo,
                  ammo_regenerated :=
                    if tr.weapon.reload_size ≤ (regenBatch tr t : ℚ) then 0
                    else regenBatch tr t,
                  ammo_regen_timer :=
                    tr.ammo_regen_timer
                      + (regenAmount tr t : ℚ) / tr.weapon.ammo_regen,
                  regenerating_ammo := false }
      else
        { tr with ammo := regenAmmo1 tr t,
                  ammo_regenerated :=
                    if tr.weapon.reload_size ≤ (regenBatch tr t : ℚ) then 0
                    else regenBatch tr t,
                  ammo_regen_timer :=
                    tr.ammo_regen_timer
                      + (regenAmount tr t : ℚ) / tr.weapon.ammo_regen } := by
  simp only [AmmoTracker.regenerate_ammo, regenAmmo1, regenBatch, regenAmount]

/-- C5: with `ammo_regen > 0` and the reload interval set by
`AmmoTracker.__init__`, `should_regenerate_ammo(t)` is true exactly when
`t - regen_timer ≥ 1/ammo_regen`, and `regenerate_ammo(t)` computes the
whole (floored) number of units regenerated since the timer last advanced,
advances the timer by exactly that whole-unit time (carrying the
fractional remainder, so the timer never passes `t`), credits the
accumulated units to the usable pool only when a full `reload_size` batch
has accumulated, caps usable ammo at the weapon's maximum and clears the
regenerating flag when the cap is reached. -/
theorem regenerate_ammo_spec (tr : AmmoTracker) (t : ℚ)
    (hregen : 0 < tr.weapon.ammo_regen)
    (hrt : tr.ammo_regen_time = 1 / tr.weapon.ammo_regen)
    (htimer : tr.ammo_regen_timer ≤ t)
    (hammo : tr.ammo ≤ tr.weapon.ammo) :
    (tr.should_regenerate_ammo t = true ↔
        1 / tr.weapon.ammo_regen ≤ t - tr.ammo_regen_timer) ∧
    regenAmount tr t = ⌊tr.weapon.ammo_regen * (t - tr.ammo_regen_timer)⌋ ∧
    (tr.regenerate_ammo t).ammo_regen_timer
        = tr.ammo_regen_timer + (regenAmount tr t : ℚ) / tr.weapon.ammo_regen ∧
    (tr.regenerate_ammo t).ammo_regen_timer ≤ t ∧
    (tr.regenerate_ammo t).ammo_regenerated
        = (if tr.weapon.reload_size ≤ (regenBatch tr t : ℚ) then 0
           else regenBatch tr t) ∧
    ((regenBatch tr t : ℚ) < tr.weapon.reload_size →
        (tr.regenerate_ammo t).ammo = tr.ammo) ∧
    (tr.regenerate_ammo t).ammo
        = (if tr.weapon.ammo ≤ regenAmmo1 tr t then tr.weapon.ammo
           else regenAmmo1 tr t) ∧
    (tr.regenerate_ammo t).ammo ≤ tr.weapon.ammo ∧
    (tr.regenerate_ammo t).regenerating_ammo
        = (if tr.weapon.ammo ≤ regenAmmo1 tr t then false
           else tr.regenerating_ammo) := by
  have hprod : 0 ≤ tr.weapon.ammo_regen * (t - tr.ammo_regen_timer) :=
    mul_nonneg hregen.le (sub_nonneg.mpr htimer)
  have hfloor : regenAmount tr t
      = ⌊tr.weapon.ammo_regen * (t - tr.ammo_regen_timer)⌋ :=
    pyTrunc_eq_floor _ hprod
  have hle : (regenAmount tr t : ℚ)
      ≤ tr.weapon.ammo_regen * (t - tr.ammo_regen_timer) := by
    rw [hfloor]; exact Int.floor_le _
  have htimer' : tr.ammo_regen_timer
      + (regenAmount tr t : ℚ) / tr.weapon.ammo_regen ≤ t := by
    have h2 : (regenAmount tr t : ℚ) / tr.weapon.ammo_regen
        ≤ tr.weapon.ammo_regen * (t - tr.ammo_regen_timer)
            / tr.weapon.ammo_regen :=
      (div_le_div_iff_of_pos_right hregen).mpr hle
    have h3 : tr.weapon.ammo_regen * (t - tr.ammo_regen_timer)
        / tr.weapon.ammo_regen = t - tr.ammo_regen_timer := by
      field_simp
    rw [h3] at h2; linarith
  refine ⟨?_, hfloor, ?_, ?_, ?_, ?_, ?_, ?_, ?_⟩
  · simp [AmmoTracker.should_regenerate_ammo, hrt]
  · rw [regenerate_ammo_eq]; split_ifs <;> rfl
  · rw [regenerate_ammo_eq]; split_ifs <;> exact htimer'
  · rw [regenerate_ammo_eq]; split_ifs <;> rfl
  · intro hlt
    have hnc : ¬ tr.weapon.reload_size ≤ (regenBatch tr t : ℚ) := not_le.mpr hlt
    have ha1 : regenAmmo1 tr t = tr.ammo := by rw [regenAmmo1, if_neg hnc]
    rw [regenerate_ammo_eq]
    split_ifs with h
    · rw [ha1] at h
      show tr.weapon.ammo = tr.ammo
      omega
    · exact ha1
  · rw [regenerate_ammo_eq]; split_ifs <;> rfl
  · rw [regenerate_ammo_eq]
    split_ifs with h <;>
      first
        | exact le_refl tr.weapon.ammo
        | · show regenAmmo1 tr t ≤ tr.weapon.ammo
            omega
  · rw [regenerate_ammo_eq]; split_ifs <;> rfl

/-- Witness for C5: a tracker mid-run (5 of 10 ammo, timer at 0,
regenerating) queried at `t = 3/2` with `ammo_regen = 1`. -/
theorem regenerate_ammo_spec_witness :
    (0 : ℚ) < 1 ∧
    ({ weapon := { charge_up := 0, charge_down := 1, burst_size := 1,
                   burst_delay := 0, ammo := 10, ammo_regen := 1,
                   reload_size := 1, proj_speed := 500 },
       ammo := 5, ammo_regen_time := 1, ammo_regenerated := 0,
       ammo_regen_timer := 0, regenerating_ammo := true } : AmmoTracker).ammo
        ≤ (10 : ℤ) ∧
    (({ weapon := { charge_up := 0, charge_down := 1, burst_size := 1,
                    burst_delay := 0, ammo := 10, ammo_regen := 1,
                    reload_size := 1, proj_speed := 500 },
        ammo := 5, ammo_regen_time := 1, ammo_regenerated := 0,
        ammo_regen_timer := 0, regenerating_ammo := true } :
          AmmoTracker).regenerate_ammo (3/2)).ammo ≤ (10 : ℤ) := by
  have h := regenerate_ammo_spec
    { weapon := { charge_up := 0, charge_down := 1, burst_size := 1,
                  burst_delay := 0, ammo := 10, ammo_regen := 1,
                  reload_size := 1, proj_speed := 500 },
      ammo := 5, ammo_regen_time := 1, ammo_regenerated := 0,
      ammo_regen_timer := 0, regenerating_ammo := true } (3/2)
    (by norm_num) (by norm_num) (by norm_num) (by norm_num)
  exact ⟨by norm_num, by norm_num, h.2.2.2.2.2.2.2.1⟩

/-- C8: on any tracker state reachable by the code (usable ammo at most the
maximum, the regenerating flag only set while below the maximum, and an
accumulator that is below `reload_size` or zero), calling
`regenerate_ammo` with zero elapsed regeneration time is a no-op on the
whole tracker state; and with `ammo_regen = 1` and `reload_size = 1`,
exactly one second of elapsed regeneration time credits exactly one unit
of ammo and advances the timer by exactly one second (fractional elapsed
time below one unit leaves the timer untouched, so it carries over to
later calls). -/
theorem regenerate_ammo_noop_unit (tr : AmmoTracker)
    (hregen : 0 < tr.weapon.ammo_regen)
    (hammo : tr.ammo ≤ tr.weapon.ammo)
    (hflag : tr.regenerating_ammo = true → tr.ammo < tr.weapon.ammo)
    (hacc : (tr.ammo_regenerated : ℚ) < tr.weapon.reload_size ∨
        tr.ammo_regenerated = 0) :
    tr.regenerate_ammo tr.ammo_regen_timer = tr ∧
    (tr.weapon.ammo_regen = 1 → tr.weapon.reload_size = 1 →
      tr.ammo_regenerated = 0 → tr.ammo + 1 < tr.weapon.ammo →
      tr.regenerate_ammo (tr.ammo_regen_timer + 1)
        = { tr with ammo := tr.ammo + 1,
                    ammo_regen_timer := tr.ammo_regen_timer + 1 }) := by
  constructor
  · have hA : regenAmount tr tr.ammo_regen_timer = 0 := by
      unfold regenAmount; rw [sub_self, mul_zero]; rfl
    have hB : regenBatch tr tr.ammo_regen_timer = tr.ammo_regenerated := by
      unfold regenBatch; rw [hA, add_zero]
    have hA1 : regenAmmo1 tr tr.ammo_regen_timer = tr.ammo := by
      unfold regenAmmo1; rw [hB]
      rcases hacc with h | h
      · rw [if_neg (not_le.mpr h)]
      · rw [h]; split_ifs <;> simp
    rw [regenerate_ammo_eq, hA1, hB, hA]
    split_ifs with hcap hcred hcred
    · have hAm : tr.weapon.ammo = tr.ammo := le_antisymm hcap hammo
      have hz : tr.ammo_regenerated = 0 := by
        rcases hacc with h | h
        · exact absurd hcred (not_le.mpr h)
        · exact h
      have hfl : tr.regenerating_ammo = false := by
        cases hF : tr.regenerating_ammo
        · rfl
        · exact absurd (hflag hF) (by omega)
      ext <;> simp [hAm, hz, hfl]
    · have hAm : tr.weapon.ammo = tr.ammo := le_antisymm hcap hammo
      have hfl : tr.regenerating_ammo = false := by
        cases hF : tr.regenerating_ammo
        · rfl
        · exact absurd (hflag hF) (by omega)
      ext <;> simp [hAm, hfl]
    · have hz : tr.ammo_regenerated = 0 := by
        rcases hacc with h | h
        · exact absurd hcred (not_le.mpr h)
        · exact h
      ext <;> simp [hz]
    · ext <;> simp
  · intro hr1 hrl hz hlt
    have hA : regenAmount tr (tr.ammo_regen_timer + 1) = 1 := by
      unfold regenAmount
      rw [hr1, one_mul, add_sub_cancel_left]
      rfl
    have hB : regenBatch tr (tr.ammo_regen_timer + 1) = 1 := by
      unfold regenBatch; rw [hA, hz, zero_add]
    have hA1 : regenAmmo1 tr (tr.ammo_regen_timer + 1) = tr.ammo + 1 := by
      unfold regenAmmo1; rw [hB, hrl]
      norm_num
    rw [regenerate_ammo_eq, hA1, hB, hA, hrl]
    rw [if_neg (by omega : ¬ tr.weapon.ammo ≤ tr.ammo + 1)]
    have hcred : ((1 : ℚ) ≤ ((1 : ℤ) : ℚ)) := by norm_num
    rw [if_pos hcred]
    ext <;> simp [hz, hr1]

/-- Witness for C8 at the concrete mid-run tracker `trackerExample`. -/
theorem regenerate_ammo_noop_unit_witness :
    trackerExample.regenerate_ammo trackerExample.ammo_regen_timer
        = trackerExample ∧
    (trackerExample.regenerate_ammo (trackerExample.ammo_regen_timer + 1)).ammo
        = 6 := by
  have h := regenerate_ammo_noop_unit trackerExample
    (by norm_num [trackerExample]) (by norm_num [trackerExample])
    (fun _ => by norm_num [trackerExample]) (Or.inr rfl)
  refine ⟨h.1, ?_⟩
  rw [h.2 rfl rfl rfl (by norm_num [trackerExample])]
  norm_num [trackerExample]

/-- C6 (bug evaluation): a projectile record whose `type` is "MISSILE" is
classified as GUN, because `data["type"] == "BALLISTIC" or "ENERGY"` is a
disjunction with the always-truthy literal "ENERGY"; the MISSILE branch of
`Weapon.__init__` is unreachable. -/
theorem weapon_mode_missile_bug :
    weaponMode missileRecord = .ok (some .GUN) := by
  rfl

/-- The `while` loop of `_gun_hit_sequence` returns its state unchanged once
the 100-second horizon is reached, regardless of remaining fuel. -/
theorem gunLoop_exit (w : GunWeapon) (travel : ℚ) (n : ℕ) (s : GunSimState)
    (h : ¬ s.time < 100) : gunLoop w travel n s = .ok s := by
  cases n <;> simp [gunLoop, h]

/-- One unfolding of the `while` loop of `_gun_hit_sequence` while the
horizon has not been reached. -/
theorem gunLoop_succ_of_lt (w : GunWeapon) (travel : ℚ) (n : ℕ)
    (s : GunSimState) (h : s.time < 100) :
    gunLoop w travel (n + 1) s =
      match gunCycle w travel s with
      | .error e => .error e
      | .ok s2 => gunLoop w travel n s2 := by
  simp [gunLoop, h]

/-- Parsed parameters of the C1 example weapon. -/
theorem gunExampleA_eq : gunExampleA =
    { charge_up := 0, charge_down := 100, burst_size := 1, burst_delay := 0,
      ammo := 1, ammo_regen := 1, reload_size := 1, proj_speed := 2 } := by
  norm_num [gunExampleA, GunWeapon.create, MINIMUM_REFIRE_DELAY, pyTrunc]

/-- The single firing cycle of the C1 example run: the one shot lands at
`0 + 3/2` and the clamped `charge_down` pushes the clock to the horizon. -/
theorem gunExampleA_cycle : gunCycle gunExampleA (3/2)
    { time := 0, tracker := AmmoTracker.create gunExampleA, times := [] }
    = .ok { time := 100,
            tracker := { weapon := gunExampleA, ammo := 1, ammo_regen_time := 1,
                         ammo_regenerated := 0, ammo_regen_timer := 100,
                         regenerating_ammo := false },
            times := [3/2] } := by
  have h1 : AmmoTracker.create gunExampleA
      = { weapon := gunExampleA, ammo := 1, ammo_regen_time := 1,
          ammo_regenerated := 0, ammo_regen_timer := 0,
          regenerating_ammo := false } := by
    rw [AmmoTracker.create, gunExampleA_eq]
    norm_num
  rw [gunCycle, h1]
  norm_num [gunExampleA_eq, AmmoTracker.regenCheck, Except.map,
    AmmoTracker.should_regenerate_ammo, simultaneousShots,
    AmmoTracker.regenerate_ammo, pyTrunc_eq_floor]

/-- Recorded hit times of the C1 example run: exactly one hit, at 3/2. -/
theorem gunExampleA_times : gunTimes gunExampleA 3 = .ok [3/2] := by
  rw [gunTimes, gunInit]
  have htrav : (3 : ℚ) / gunExampleA.proj_speed = 3/2 := by
    rw [gunExampleA_eq]
  rw [htrav]
  have h0 :
      ({ time := 0, tracker := AmmoTracker.create gunExampleA, times := [] } :
        GunSimState).time < 100 := by
    norm_num
  have hstep := gunLoop_succ_of_lt gunExampleA (3/2) 1999
    { time := 0, tracker := AmmoTracker.create gunExampleA, times := [] } h0
  rw [show (2000 : ℕ) = 1999 + 1 from rfl, hstep, gunExampleA_cycle]
  have h2 :
      ¬ ({ time := 100,
           tracker := { weapon := gunExampleA, ammo := 1, ammo_regen_time := 1,
                        ammo_regenerated := 0, ammo_regen_timer := 100,
                        regenerating_ammo := false },
           times := [3/2] } : GunSimState).time < 100 := by
    norm_num
  show Except.map GunSimState.times
      (gunLoop gunExampleA (3/2) 1999
        { time := 100,
          tracker := { weapon := gunExampleA, ammo := 1, ammo_regen_time := 1,
                       ammo_regenerated := 0, ammo_regen_timer := 100,
                       regenerating_ammo := false },
          times := [3/2] }) = .ok [3/2]
  rw [gunLoop_exit _ _ _ _ h2]
  rfl

/-- Python truncation of the example hit time 3/2 is 1. -/
theorem pyTrunc_three_halves : pyTrunc (3/2) = 1 := by
  rw [pyTrunc_eq_floor _ (by norm_num)]
  rw [Int.floor_eq_iff]
  norm_num

/-- Parsed parameters of the positive-`burst_delay` example weapon. -/
theorem gunExampleB_eq : gunExampleB =
    { charge_up := 0, charge_down := 1, burst_size := 1, burst_delay := 1/10,
      ammo := 1, ammo_regen := 1, reload_size := 1, proj_speed := 1 } := by
  norm_num [gunExampleB, GunWeapon.create, MINIMUM_REFIRE_DELAY, pyTrunc]

/-- C7 (bug evaluation): a GUN weapon with `burst_delay = 0.1`, one shot
per burst and one unit of ammo crashes `_gun_hit_sequence` with
`UnboundLocalError` on the first fired shot: `_successive_shots` assigns
`time += self.burst_delay` without declaring `time` nonlocal, so the read
`times.append(time + travel_time)` hits an unbound local instead of
recording the hit sequence. -/
theorem gun_hit_sequence_successive_crash :
    gunHitSequence gunExampleB 1 = .error .unboundLocalError := by
  rw [gunHitSequence, gunTimes, gunInit]
  have h1 : AmmoTracker.create gunExampleB
      = { weapon := gunExampleB, ammo := 1, ammo_regen_time := 1,
          ammo_regenerated := 0, ammo_regen_timer := 0,
          regenerating_ammo := false } := by
    rw [AmmoTracker.create, gunExampleB_eq]
    norm_num
  have hcyc : gunCycle gunExampleB (1 / gunExampleB.proj_speed)
      { time := 0, tracker := AmmoTracker.create gunExampleB, times := [] }
      = .error .unboundLocalError := by
    rw [gunCycle, h1]
    norm_num [gunExampleB_eq, AmmoTracker.regenCheck, Except.map,
      AmmoTracker.should_regenerate_ammo, successiveShots]
  have h0 :
      ({ time := 0, tracker := AmmoTracker.create gunExampleB, times := [] } :
        GunSimState).time < 100 := by
    norm_num
  have hstep := gunLoop_succ_of_lt gunExampleB (1 / gunExampleB.proj_speed) 1999
    { time := 0, tracker := AmmoTracker.create gunExampleB, times := [] } h0
  rw [show (2000 : ℕ) = 1999 + 1 from rfl, hstep, hcyc]
  rfl

/-- C1 (counterexample): for the GUN weapon `gunExampleA` at distance 3 the
run records exactly one hit, at time 3/2; the returned sequence has count 1
in bucket 0 and count 1 in bucket 1, yet no recorded hit time lies in
`(0, 1]` — so bucket 0 does not count exactly the hits in `(0, 1]`, and
the single hit is counted in two buckets. -/
theorem gun_hit_sequence_bucket_cex :
    gunTimes gunExampleA 3 = .ok [(3 : ℚ)/2] ∧
    gunHitSequence gunExampleA 3 = .ok (hitBuckets [(3 : ℚ)/2]) ∧
    (hitBuckets [(3 : ℚ)/2]).headI = 1 ∧
    (hitBuckets [(3 : ℚ)/2]).getD 1 0 = 1 ∧
    ([(3 : ℚ)/2].countP (fun t => decide (0 < t ∧ t ≤ 1))) = 0 := by
  refine ⟨gunExampleA_times, ?_, ?_, ?_, ?_⟩
  · rw [gunHitSequence, gunExampleA_times]
    rfl
  · show List.countP (fun t => decide (bucketMem 0 t)) [(3 : ℚ)/2] = 1
    rw [List.countP_cons]
    norm_num [bucketMem, pyTrunc_three_halves]
  · rw [hitBuckets]
    rw [show List.range' 1 99 = 1 :: List.range' 2 98 from rfl]
    show List.countP (fun t => decide (bucketMem 1 t)) [(3 : ℚ)/2] = 1
    rw [List.countP_cons]
    norm_num [bucketMem, pyTrunc_three_halves]
  · rw [List.countP_cons]
    norm_num

/-- C1 (amended): the sequence returned by `_gun_hit_sequence` has exactly
100 buckets and bucket `k` counts the recorded hit times `t` with
`bucketMem k t`, i.e. bucket 0 counts `int(t) ∈ {0, 1}` (`t ∈ [0, 2)`) and
bucket `k ≥ 1` counts `int(t) = k` (`t ∈ [k, k+1)`); consequently a
nonnegative hit time is counted in two buckets when `int(t) = 1`, in
exactly one bucket when `int(t) ≤ 99` and `int(t) ≠ 1`, and dropped when
`int(t) ≥ 100`. -/
theorem hit_buckets_amended (times : List ℚ) :
    (hitBuckets times).length = 100 ∧
    hitBuckets times
      = (List.range 100).map
          (fun k => times.countP (fun t => decide (bucketMem k t))) ∧
    (∀ t : ℚ, 0 ≤ t →
      ((Finset.range 100).filter (fun k => bucketMem k t)).card
        = if pyTrunc t = 1 then 2 else if pyTrunc t ≤ 99 then 1 else 0) := by
  have hmap : hitBuckets times
      = (List.range 100).map
          (fun k => times.countP (fun t => decide (bucketMem k t))) := by
    rw [List.range_eq_range']
    rfl
  refine ⟨by rw [hmap]; simp, hmap, ?_⟩
  intro t ht
  have hm0 : 0 ≤ pyTrunc t := by
    rw [pyTrunc_eq_floor t ht]; exact Int.floor_nonneg.mpr ht
  have key : ∀ k, bucketMem k t ↔
      (k = 0 ∧ pyTrunc t ≤ 1) ∨ (1 ≤ k ∧ (k : ℤ) = pyTrunc t) := by
    intro k
    unfold bucketMem
    split_ifs with hk0
    · subst hk0
      constructor
      · rintro ⟨_, h2⟩; exact Or.inl ⟨rfl, h2⟩
      · rintro (⟨_, h2⟩ | ⟨hk1, _⟩)
        · exact ⟨hm0, h2⟩
        · omega
    · constructor
      · rintro ⟨h1, h2⟩
        right
        refine ⟨by omega, by omega⟩
      · rintro (⟨h0, _⟩ | ⟨hk1, hkm⟩)
        · exact absurd h0 hk0
        · exact ⟨by omega, by omega⟩
  split_ifs with h1 h2
  · have hset : (Finset.range 100).filter (fun k => bucketMem k t)
        = ({0, 1} : Finset ℕ) := by
      ext k
      simp only [Finset.mem_filter, Finset.mem_range, Finset.mem_insert,
        Finset.mem_singleton]
      constructor
      · rintro ⟨hk, hb⟩
        rcases (key k).mp hb with ⟨hz, _⟩ | ⟨hge, he⟩
        · exact Or.inl hz
        · right; omega
      · rintro (rfl | rfl)
        · exact ⟨by omega, (key 0).mpr (Or.inl ⟨rfl, by omega⟩)⟩
        · exact ⟨by omega, (key 1).mpr (Or.inr ⟨le_refl 1, by omega⟩)⟩
    rw [hset]; rfl
  · by_cases hz : pyTrunc t = 0
    · have hset : (Finset.range 100).filter (fun k => bucketMem k t)
          = ({0} : Finset ℕ) := by
        ext k
        simp only [Finset.mem_filter, Finset.mem_range, Finset.mem_singleton]
        constructor
        · rintro ⟨hk, hb⟩
          rcases (key k).mp hb with ⟨h0, _⟩ | ⟨hge, he⟩
          · exact h0
          · omega
        · rintro rfl
          exact ⟨by omega, (key 0).mpr (Or.inl ⟨rfl, by omega⟩)⟩
      rw [hset]; rfl
    · have hset : (Finset.range 100).filter (fun k => bucketMem k t)
          = ({(pyTrunc t).toNat} : Finset ℕ) := by
        ext k
        simp only [Finset.mem_filter, Finset.mem_range, Finset.mem_singleton]
        constructor
        · rintro ⟨hk, hb⟩
          rcases (key k).mp hb with ⟨h0, hle⟩ | ⟨hge, he⟩
          · omega
          · omega
        · rintro rfl
          refine ⟨by omega, (key (pyTrunc t).toNat).mpr (Or.inr ⟨by omega, by omega⟩)⟩
      rw [hset, Finset.card_singleton]
  · have hset : (Finset.range 100).filter (fun k => bucketMem k t)
        = (∅ : Finset ℕ) := by
      ext k
      simp only [Finset.mem_filter, Finset.mem_range, Finset.not_mem_empty,
        iff_false, not_and]
      intro hk hb
      rcases (key k).mp hb with ⟨_, hle⟩ | ⟨hge, he⟩
      · omega
      · omega
    rw [hset]; rfl

/-- Witness for the amended C1 at the recorded times of the `gunExampleA`
run (`[3/2]`) and the hit time `3/2`. -/
theorem hit_buckets_amended_witness :
    (hitBuckets [(3 : ℚ)/2]).length = 100 ∧
    (0 : ℚ) ≤ 3/2 ∧
    ((Finset.range 100).filter (fun k => bucketMem k ((3 : ℚ)/2))).card
      = if pyTrunc ((3 : ℚ)/2) = 1 then 2
        else if pyTrunc ((3 : ℚ)/2) ≤ 99 then 1 else 0 :=
  ⟨(hit_buckets_amended [(3 : ℚ)/2]).1, by norm_num,
   (hit_buckets_amended [(3 : ℚ)/2]).2.2 ((3 : ℚ)/2) (by norm_num)⟩

/-- Bounds preserved by one `regenerate_ammo` call: the weapon and reload
interval are untouched, usable ammo stays in `[0, max]`, the accumulator
stays nonnegative and the timer never passes the query time. -/
theorem regenerate_ammo_bounds (tr : AmmoTracker) (t : ℚ)
    (hregen : 0 < tr.weapon.ammo_regen) (hw0 : 0 ≤ tr.weapon.ammo)
    (h0 : 0 ≤ tr.ammo) (h1 : tr.ammo ≤ tr.weapon.ammo)
    (hacc : 0 ≤ tr.ammo_regenerated) (htimer : tr.ammo_regen_timer ≤ t) :
    (tr.regenerate_ammo t).weapon = tr.weapon ∧
    (tr.regenerate_ammo t).ammo_regen_time = tr.ammo_regen_time ∧
    0 ≤ (tr.regenerate_ammo t).ammo ∧
    (tr.regenerate_ammo t).ammo ≤ tr.weapon.ammo ∧
    0 ≤ (tr.regenerate_ammo t).ammo_regenerated ∧
    (tr.regenerate_ammo t).ammo_regen_timer ≤ t := by
  have hprod : 0 ≤ tr.weapon.ammo_regen * (t - tr.ammo_regen_timer) :=
    mul_nonneg hregen.le (sub_nonneg.mpr htimer)
  have hamount : 0 ≤ regenAmount tr t := by
    rw [regenAmount, pyTrunc_eq_floor _ hprod]
    exact Int.floor_nonneg.mpr hprod
  have hbatch : 0 ≤ regenBatch tr t := add_nonneg hacc hamount
  have hammo1 : 0 ≤ regenAmmo1 tr t := by
    unfold regenAmmo1; split_ifs <;> omega
  have hle : (regenAmount tr t : ℚ)
      ≤ tr.weapon.ammo_regen * (t - tr.ammo_regen_timer) := by
    rw [regenAmount, pyTrunc_eq_floor _ hprod]
    exact Int.floor_le _
  have htimer' : tr.ammo_regen_timer
      + (regenAmount tr t : ℚ) / tr.weapon.ammo_regen ≤ t := by
    have h2 : (regenAmount tr t : ℚ) / tr.weapon.ammo_regen
        ≤ tr.weapon.ammo_regen * (t - tr.ammo_regen_timer)
            / tr.weapon.ammo_regen :=
      (div_le_div_iff_of_pos_right hregen).mpr hle
    have h3 : tr.weapon.ammo_regen * (t - tr.ammo_regen_timer)
        / tr.weapon.ammo_regen = t - tr.ammo_regen_timer := by
      field_simp
    rw [h3] at h2; linarith
  have hreg1 : 0 ≤ (if tr.weapon.reload_size ≤ (regenBatch tr t : ℚ) then (0 : ℤ)
      else regenBatch tr t) := by
    split_ifs <;> omega
  by_cases hcap : tr.weapon.ammo ≤ regenAmmo1 tr t
  · rw [regenerate_ammo_eq, if_pos hcap]
    exact ⟨rfl, rfl, hw0, le_refl _, hreg1, htimer'⟩
  · rw [regenerate_ammo_eq, if_neg hcap]
    refine ⟨rfl, rfl, hammo1, ?_, hreg1, htimer'⟩
    show regenAmmo1 tr t ≤ tr.weapon.ammo
    omega

/-- Bounds preserved by the guarded regeneration check. -/
theorem regenCheck_bounds (tr : AmmoTracker) (t : ℚ)
    (hregen : 0 < tr.weapon.ammo_regen) (hw0 : 0 ≤ tr.weapon.ammo)
    (h0 : 0 ≤ tr.ammo) (h1 : tr.ammo ≤ tr.weapon.ammo)
    (hacc : 0 ≤ tr.ammo_regenerated) (htimer : tr.ammo_regen_timer ≤ t) :
    (tr.regenCheck t).weapon = tr.weapon ∧
    (tr.regenCheck t).ammo_regen_time = tr.ammo_regen_time ∧
    0 ≤ (tr.regenCheck t).ammo ∧
    (tr.regenCheck t).ammo ≤ tr.weapon.ammo ∧
    0 ≤ (tr.regenCheck t).ammo_regenerated ∧
    (tr.regenCheck t).ammo_regen_timer ≤ t := by
  unfold AmmoTracker.regenCheck
  split_ifs with h
  · exact regenerate_ammo_bounds tr t hregen hw0 h0 h1 hacc htimer
  · exact ⟨rfl, rfl, h0, h1, hacc, htimer⟩

/-- The regeneration check rephrased against the loop invariant's weapon. -/
theorem regenCheck_inv (w : GunWeapon) (tr : AmmoTracker) (t : ℚ)
    (hw : tr.weapon = w) (hrt : tr.ammo_regen_time = 1 / w.ammo_regen)
    (hregen : 0 < w.ammo_regen) (hw0 : 0 ≤ w.ammo)
    (h0 : 0 ≤ tr.ammo) (h1 : tr.ammo ≤ w.ammo)
    (hacc : 0 ≤ tr.ammo_regenerated) (htimer : tr.ammo_regen_timer ≤ t) :
    (tr.regenCheck t).weapon = w ∧
    (tr.regenCheck t).ammo_regen_time = 1 / w.ammo_regen ∧
    0 ≤ (tr.regenCheck t).ammo ∧
    (tr.regenCheck t).ammo ≤ w.ammo ∧
    0 ≤ (tr.regenCheck t).ammo_regenerated ∧
    (tr.regenCheck t).ammo_regen_timer ≤ t := by
  have hb := regenCheck_bounds tr t (by rw [hw]; exact hregen)
    (by rw [hw]; exact hw0) h0 (by rw [hw]; exact h1) hacc htimer
  have h4 := hb.2.2.2.1
  rw [hw] at h4
  exact ⟨hb.1.trans hw, hb.2.1.trans hrt, hb.2.2.1, h4,
    hb.2.2.2.2.1, hb.2.2.2.2.2⟩

/-- `_simultaneous_shots` preserves the loop invariant and does not advance
the clock: firing decrements ammo only when it is nonzero. -/
theorem simultaneousShots_bounds (w : GunWeapon) (travel : ℚ) :
    ∀ (n : ℕ) (s : GunSimState), GunInv w s →
      GunInv w (simultaneousShots travel n s) ∧
      (simultaneousShots travel n s).time = s.time := by
  intro n
  induction n with
  | zero => exact fun s h => ⟨h, rfl⟩
  | succ n ih =>
    intro s h
    obtain ⟨hw, hrt, h0, h1, hacc, htimer⟩ := h
    rw [simultaneousShots]
    split_ifs with hz hfl
    · exact ih s ⟨hw, hrt, h0, h1, hacc, htimer⟩
    · exact ih _ ⟨hw, hrt,
        by show (0 : ℤ) ≤ s.tracker.ammo - 1; omega,
        by show s.tracker.ammo - 1 ≤ w.ammo; omega, hacc, htimer⟩
    · exact ih _ ⟨hw, hrt,
        by show (0 : ℤ) ≤ s.tracker.ammo - 1; omega,
        by show s.tracker.ammo - 1 ≤ w.ammo; omega, hacc, le_refl _⟩

/-- `_successive_shots` either crashes or (when every iteration is skipped
for lack of ammo) returns its state unchanged. -/
theorem successiveShots_ok (n : ℕ) (s s2 : GunSimState)
    (h : successiveShots n s = .ok s2) : s2 = s := by
  induction n with
  | zero =>
    rw [successiveShots] at h
    exact (Except.ok.inj h).symm
  | succ n ih =>
    rw [successiveShots] at h
    by_cases hz : s.tracker.ammo = 0
    · rw [if_pos hz] at h
      exact ih h
    · rw [if_neg hz] at h
      exact absurd h (by simp)

/-- One firing cycle of the `_gun_hit_sequence` loop preserves the
invariant and never turns the clock backwards. -/
theorem gunCycle_bounds (w : GunWeapon) (travel : ℚ) (s s2 : GunSimState)
    (hregen : 0 < w.ammo_regen) (hw0 : 0 ≤ w.ammo)
    (hcu : 0 ≤ w.charge_up) (hcd : 0 ≤ w.charge_down)
    (h : GunInv w s) (hok : gunCycle w travel s = .ok s2) :
    GunInv w s2 ∧ s.time ≤ s2.time := by
  obtain ⟨hw, hrt, h0, h1, hacc, htimer⟩ := h
  have ht1 : s.time ≤ s.time + w.charge_up := by linarith
  have hrc := regenCheck_inv w s.tracker (s.time + w.charge_up) hw hrt
    hregen hw0 h0 h1 hacc (le_trans htimer ht1)
  have hs1 : GunInv w
      { time := s.time + w.charge_up,
        tracker := s.tracker.regenCheck (s.time + w.charge_up),
        times := s.times } :=
    ⟨hrc.1, hrc.2.1, hrc.2.2.1, hrc.2.2.2.1, hrc.2.2.2.2.1, hrc.2.2.2.2.2⟩
  have hmain : ∀ s3 : GunSimState, GunInv w s3 →
      s.time ≤ s3.time →
      GunInv w { time := s3.time + w.charge_down,
                 tracker := s3.tracker.regenCheck (s3.time + w.charge_down),
                 times := s3.times } ∧
      s.time ≤ s3.time + w.charge_down := by
    intro s3 h3 ht3
    obtain ⟨hw3, hrt3, h03, h13, hacc3, htimer3⟩ := h3
    have ht2 : s3.time ≤ s3.time + w.charge_down := by linarith
    have hrc3 := regenCheck_inv w s3.tracker (s3.time + w.charge_down) hw3
      hrt3 hregen hw0 h03 h13 hacc3 (le_trans htimer3 ht2)
    exact ⟨⟨hrc3.1, hrc3.2.1, hrc3.2.2.1, hrc3.2.2.2.1, hrc3.2.2.2.2.1,
      hrc3.2.2.2.2.2⟩, by linarith⟩
  rw [gunCycle] at hok
  by_cases hbd : w.burst_delay = 0
  · rw [if_pos hbd] at hok
    simp only [Except.map] at hok
    have hsim := simultaneousShots_bounds w travel w.burst_size _ hs1
    have hres := hmain (simultaneousShots travel w.burst_size
        { time := s.time + w.charge_up,
          tracker := s.tracker.regenCheck (s.time + w.charge_up),
          times := s.times }) hsim.1 (by rw [hsim.2]; exact ht1)
    rw [← Except.ok.inj hok]
    exact hres
  · rw [if_neg hbd] at hok
    cases hS : successiveShots w.burst_size
        { time := s.time + w.charge_up,
          tracker := s.tracker.regenCheck (s.time + w.charge_up),
          times := s.times } with
    | error e => rw [hS] at hok; exact absurd hok (by simp [Except.map])
    | ok s3 =>
      rw [hS] at hok
      simp only [Except.map] at hok
      have heq := successiveShots_ok _ _ _ hS
      subst heq
      have hres := hmain _ hs1 ht1
      rw [← Except.ok.inj hok]
      exact hres

/-- The whole `_gun_hit_sequence` loop preserves the invariant. -/
theorem gunLoop_bounds (w : GunWeapon) (travel : ℚ)
    (hregen : 0 < w.ammo_regen) (hw0 : 0 ≤ w.ammo)
    (hcu : 0 ≤ w.charge_up) (hcd : 0 ≤ w.charge_down) :
    ∀ (fuel : ℕ) (s s2 : GunSimState), GunInv w s →
      gunLoop w travel fuel s = .ok s2 → GunInv w s2 := by
  intro fuel
  induction fuel with
  | zero =>
    intro s s2 h hok
    rw [gunLoop] at hok
    by_cases hc : s.time < 100
    · rw [if_pos hc] at hok
      exact absurd hok (by simp)
    · rw [if_neg hc] at hok
      rw [← Except.ok.inj hok]
      exact h
  | succ n ih =>
    intro s s2 h hok
    rw [gunLoop] at hok
    by_cases hc : s.time < 100
    · rw [if_pos hc] at hok
      cases hC : gunCycle w travel s with
      | error e => rw [hC] at hok; exact absurd hok (by simp)
      | ok s3 =>
        rw [hC] at hok
        exact ih s3 s2
          (gunCycle_bounds w travel s s3 hregen hw0 hcu hcd h hC).1 hok
    · rw [if_neg hc] at hok
      rw [← Except.ok.inj hok]
      exact h

/-- C10: throughout a `_gun_hit_sequence` run over a weapon with finite
integer ammo `≥ 0`, `ammo_regen > 0` and nonnegative charge times, the
tracker's usable ammo stays in `[0, max]`: the initial state satisfies the
invariant, `_simultaneous_shots` preserves it (an out-of-ammo shot is
skipped rather than driving ammo negative), every firing cycle preserves
it (regeneration clamps at the maximum), and any state the loop returns
satisfies `0 ≤ ammo ≤ max`. -/
theorem gun_ammo_invariant (w : GunWeapon) (travel : ℚ)
    (hw0 : 0 ≤ w.ammo) (hregen : 0 < w.ammo_regen)
    (hcu : 0 ≤ w.charge_up) (hcd : 0 ≤ w.charge_down) :
    GunInv w (gunInit w) ∧
    (∀ (n : ℕ) (s : GunSimState), GunInv w s →
        GunInv w (simultaneousShots travel n s)) ∧
    (∀ s s2 : GunSimState, GunInv w s → gunCycle w travel s = .ok s2 →
        GunInv w s2) ∧
    (∀ (fuel : ℕ) (s s2 : GunSimState), GunInv w s →
        gunLoop w travel fuel s = .ok s2 →
        0 ≤ s2.tracker.ammo ∧ s2.tracker.ammo ≤ w.ammo) := by
  refine ⟨⟨rfl, rfl, hw0, le_refl _, le_refl _, le_refl _⟩,
    fun n s h => (simultaneousShots_bounds w travel n s h).1,
    fun s s2 h hok => (gunCycle_bounds w travel s s2 hregen hw0 hcu hcd h hok).1,
    fun fuel s s2 h hok => ?_⟩
  have := gunLoop_bounds w travel hregen hw0 hcu hcd fuel s s2 h hok
  exact ⟨this.2.2.1, this.2.2.2.1⟩

/-- Witness for C10 at the concrete weapon `gunExampleA` and travel time
3/2. -/
theorem gun_ammo_invariant_witness :
    (0 : ℤ) ≤ gunExampleA.ammo ∧ 0 < gunExampleA.ammo_regen ∧
    (0 : ℚ) ≤ gunExampleA.charge_up ∧ (0 : ℚ) ≤ gunExampleA.charge_down ∧
    GunInv gunExampleA (gunInit gunExampleA) := by
  have h := gun_ammo_invariant gunExampleA (3/2)
    (by norm_num [gunExampleA_eq]) (by norm_num [gunExampleA_eq])
    (by norm_num [gunExampleA_eq]) (by norm_num [gunExampleA_eq])
  exact ⟨by norm_num [gunExampleA_eq], by norm_num [gunExampleA_eq],
    by norm_num [gunExampleA_eq], by norm_num [gunExampleA_eq], h.1⟩

/-- `_simultaneous_shots` never advances the simulated clock. -/
theorem simultaneousShots_time (travel : ℚ) :
    ∀ (n : ℕ) (s : GunSimState), (simultaneousShots travel n s).time = s.time := by
  intro n
  induction n with
  | zero => exact fun s => rfl
  | succ n ih =>
    intro s
    rw [simultaneousShots]
    split_ifs <;> exact ih _

/-- `_successive_shots` can only fail with `UnboundLocalError`. -/
theorem successiveShots_error (n : ℕ) (s : GunSimState) (e : PyExc)
    (h : successiveShots n s = .error e) : e = .unboundLocalError := by
  induction n with
  | zero =>
    rw [successiveShots] at h
    exact absurd h (by simp)
  | succ n ih =>
    rw [successiveShots] at h
    by_cases hz : s.tracker.ammo = 0
    · rw [if_pos hz] at h
      exact ih h
    · rw [if_neg hz] at h
      exact (Except.error.inj h).symm

/-- Each successful firing cycle advances the clock by at least
`charge_down`. -/
theorem gunCycle_advances (w : GunWeapon) (travel : ℚ) (s s2 : GunSimState)
    (hcu : 0 ≤ w.charge_up) (hok : gunCycle w travel s = .ok s2) :
    s.time + w.charge_down ≤ s2.time := by
  rw [gunCycle] at hok
  by_cases hbd : w.burst_delay = 0
  · rw [if_pos hbd] at hok
    simp only [Except.map] at hok
    have ht := simultaneousShots_time travel w.burst_size
      { time := s.time + w.charge_up,
        tracker := s.tracker.regenCheck (s.time + w.charge_up),
        times := s.times }
    rw [← Except.ok.inj hok]
    show s.time + w.charge_down
        ≤ (simultaneousShots travel w.burst_size _).time + w.charge_down
    rw [ht]
    show s.time + w.charge_down ≤ s.time + w.charge_up + w.charge_down
    linarith
  · rw [if_neg hbd] at hok
    cases hS : successiveShots w.burst_size
        { time := s.time + w.charge_up,
          tracker := s.tracker.regenCheck (s.time + w.charge_up),
          times := s.times } with
    | error e => rw [hS] at hok; exact absurd hok (by simp [Except.map])
    | ok s3 =>
      rw [hS] at hok
      simp only [Except.map] at hok
      have heq := successiveShots_ok _ _ _ hS
      subst heq
      rw [← Except.ok.inj hok]
      show s.time + w.charge_down ≤ s.time + w.charge_up + w.charge_down
      linarith

/-- A cycle can only fail with `UnboundLocalError`. -/
theorem gunCycle_error (w : GunWeapon) (travel : ℚ) (s : GunSimState)
    (e : PyExc) (h : gunCycle w travel s = .error e) :
    e = .unboundLocalError := by
  rw [gunCycle] at h
  by_cases hbd : w.burst_delay = 0
  · rw [if_pos hbd] at h
    exact absurd h (by simp [Except.map])
  · rw [if_neg hbd] at h
    cases hS : successiveShots w.burst_size
        { time := s.time + w.charge_up,
          tracker := s.tracker.regenCheck (s.time + w.charge_up),
          times := s.times } with
    | error e2 =>
      rw [hS] at h
      simp only [Except.map] at h
      rw [← Except.error.inj h]
      exact successiveShots_error _ _ _ hS
    | ok s3 => rw [hS] at h; exact absurd h (by simp [Except.map])

/-- The fuel of the embedded loop is an artifact: with `charge_up ≥ 0` and
the clamped `charge_down ≥ 0.05`, `n` units of fuel are never exhausted
once `s.time + n * 0.05` reaches the 100-second horizon.  With `n = 2000`
and `s.time = 0` this covers the fuel used by `gunHitSequence`. -/
theorem gunLoop_no_fuel_error (w : GunWeapon) (travel : ℚ)
    (hcu : 0 ≤ w.charge_up) (hcd : MINIMUM_REFIRE_DELAY ≤ w.charge_down) :
    ∀ (n : ℕ) (s : GunSimState), 100 ≤ s.time + n * MINIMUM_REFIRE_DELAY →
      gunLoop w travel n s ≠ .error .outOfFuel := by
  intro n
  induction n with
  | zero =>
    intro s hn
    rw [gunLoop]
    have hc : ¬ s.time < 100 := by
      push_cast at hn
      linarith
    rw [if_neg hc]
    simp
  | succ n ih =>
    intro s hn
    rw [gunLoop]
    by_cases hc : s.time < 100
    · rw [if_pos hc]
      cases hC : gunCycle w travel s with
      | error e =>
        have := gunCycle_error w travel s e hC
        subst this
        simp
      | ok s3 =>
        apply ih
        have hadv := gunCycle_advances w travel s s3 hcu hC
        have : s.time + MINIMUM_REFIRE_DELAY ≤ s3.time := by
          unfold MINIMUM_REFIRE_DELAY at *
          linarith
        push_cast at hn ⊢
        linarith
    · rw [if_neg hc]
      simp

end StatSector
